import Mathlib

/-!
Verification of the DebugAngel logging utility
(`Source Main 5.2/source/Utilities/Log/DebugAngel.cpp`).

The file embeds the line-construction logic of the two write operations
(`WriteDebugInfoStr` / `DebugAngel_Write` and `DebugAngel_HexWrite`) and the
timestamp helper `GetCurrentTimeWrapped` as pure Lean functions, and models
the destination file as its `String` contents.  A call that succeeds in
opening the file appends its record to the contents; Windows `CreateFile`
failure is modelled by an `openOk : Bool` flag (the source never checks the
handle, and `SetFilePointer`/`WriteFile` on `INVALID_HANDLE_VALUE` fail
without writing, so a failed open leaves the file unchanged).
-/

namespace DebugAngel

/-- A broken-down local time, the relevant fields of C's `struct tm`
(already normalised to calendar values: `month` is 1..12, not 0-based).
`minute` stands for `tm_min`. -/
structure Tm where
  year : Nat
  month : Nat
  day : Nat
  hour : Nat
  minute : Nat
  sec : Nat
deriving DecidableEq, Repr

/-- The hexadecimal digit characters used by `printf`-style `%X`
formatting: `0`-`9` then uppercase `A`-`F`. -/
def hexDigit (n : Nat) : Char :=
  if n < 10 then Char.ofNat (48 + n) else Char.ofNat (55 + n)

/-- Fuel-driven digit extraction: with `n ≤ fuel` it produces the decimal
digit characters of `n`, most significant first (`[]` for 0).  Structural
recursion on the fuel keeps the function kernel-reducible. -/
def decCharsAux : Nat → Nat → List Char
  | _, 0 => []
  | 0, _ + 1 => []
  | fuel + 1, n + 1 => decCharsAux fuel ((n + 1) / 10) ++ [hexDigit ((n + 1) % 10)]

/-- Decimal digit characters of `n`, most significant first; `[]` for 0.
Models the digit sequence `printf`/`strftime` produce for a decimal field. -/
def decChars (n : Nat) : List Char :=
  decCharsAux n n

/-- Decimal rendering of `n` (what `%d`-style formatting prints). -/
def toDecString (n : Nat) : String :=
  if n = 0 then "0" else String.mk (decChars n)

/-- A two-digit zero-padded decimal field, as `strftime`'s `%m`, `%d`,
`%H`, `%M`, `%S` produce for their in-range values. -/
def pad2 (n : Nat) : String :=
  if n < 10 then "0" ++ toDecString n else toDecString n

/-- `GetCurrentTimeWrapped`: `strftime(timeStr, 64, "[%Y-%m-%d %H:%M:%S] ", tm)`,
with the clock injected as the `Tm` argument. -/
def getCurrentTimeWrapped (t : Tm) : String :=
  "[" ++ toDecString t.year ++ "-" ++ pad2 t.month ++ "-" ++ pad2 t.day ++
    " " ++ pad2 t.hour ++ ":" ++ pad2 t.minute ++ ":" ++ pad2 t.sec ++ "] "

/-- The direction tag of `DebugAngel_HexWrite`:
`if (sender == 1) strcpy(logType, "C->S "); else strcpy(logType, "S->C ");`. -/
def logType (sender : Int) : String :=
  if sender = 1 then "C->S " else "S->C "

/-- One hex token of the dump loop: `wsprintf(lpszTemp, "0x%02X ", *pbySeek)`
for a `BYTE` value (always `0..255`, hence exactly two uppercase digits). -/
def hexToken (b : Fin 256) : String :=
  "0x" ++ String.mk [hexDigit (b.val / 16), hexDigit (b.val % 16)] ++ " "

/-- The hex-dump loop `for (j = 0; j < iSize; j++) strcat(lpszStr, lpszTemp);`
accumulating tokens onto `acc` in buffer order. -/
def hexLoop : List (Fin 256) → String → String
  | [], acc => acc
  | b :: bs, acc => hexLoop bs (acc ++ hexToken b)

/-- The complete line `DebugAngel_HexWrite` assembles in `lpszStr`:
start from the empty C string, `strcat` the timestamp, the direction tag,
the hex tokens, then `"\r\n"`. -/
def hexLine (t : Tm) (buffer : List (Fin 256)) (sender : Int) : String :=
  hexLoop buffer (("" ++ getCurrentTimeWrapped t) ++ logType sender) ++ "\r\n"

/-- `WriteDebugInfoStr`: open (`OPEN_ALWAYS`, no truncation), seek to
`FILE_END`, `WriteFile` the string, close.  `openOk` models whether
`CreateFile` succeeded; on failure the unchecked invalid handle makes the
seek and write no-ops, leaving the contents untouched. -/
def writeDebugInfoStr (openOk : Bool) (contents toWrite : String) : String :=
  if openOk then contents ++ toWrite else contents

/-- `DebugAngel_Write`: render the varargs into `lpszBuffer` (the rendered
string is taken as input, formatting happens in `wvsprintf`), then hand the
buffer unchanged to `WriteDebugInfoStr`. -/
def debugAngel_Write (openOk : Bool) (contents rendered : String) : String :=
  writeDebugInfoStr openOk contents rendered

/-- `DebugAngel_HexWrite`: open without truncation, seek to end, write the
assembled `hexLine`, close; a failed open writes nothing. -/
def debugAngel_HexWrite (openOk : Bool) (contents : String) (t : Tm)
    (buffer : List (Fin 256)) (sender : Int) : String :=
  if openOk then contents ++ hexLine t buffer sender else contents

/-- The concatenation of the hex tokens of a buffer, in buffer order:
the body the spec describes for a hex-dump record. -/
def hexBody : List (Fin 256) → String
  | [] => ""
  | b :: bs => hexToken b ++ hexBody bs

/-- `c` is a digit `printf`'s uppercase `%X` can emit. -/
def isUpperHexDigit (c : Char) : Prop :=
  c ∈ "0123456789ABCDEF".data

instance (c : Char) : Decidable (isUpperHexDigit c) := by
  unfold isUpperHexDigit; infer_instance

/-- A broken-down time whose fields are in the ranges `struct tm` delivers
for real calendar dates (with a four-digit year). -/
def ValidTm (t : Tm) : Prop :=
  1000 ≤ t.year ∧ t.year ≤ 9999 ∧ 1 ≤ t.month ∧ t.month ≤ 12 ∧
    1 ≤ t.day ∧ t.day ≤ 31 ∧ t.hour ≤ 23 ∧ t.minute ≤ 59 ∧ t.sec ≤ 59

instance (t : Tm) : Decidable (ValidTm t) := by
  unfold ValidTm; infer_instance

/-- A decimal field zero-padded on the left to width `w`, following the
spec's description of the timestamp fields. -/
def zeroPad (w n : Nat) : String :=
  String.mk (List.replicate (w - (toDecString n).length) '0') ++ toDecString n

/-- Modelled from the spec's words: the timestamp record
`[YYYY-MM-DD HH:MM:SS] ` with zero-padded fields, for comparison with the
source-derived `getCurrentTimeWrapped`. -/
def specTimestamp (t : Tm) : String :=
  "[" ++ zeroPad 4 t.year ++ "-" ++ zeroPad 2 t.month ++ "-" ++ zeroPad 2 t.day ++
    " " ++ zeroPad 2 t.hour ++ ":" ++ zeroPad 2 t.minute ++ ":" ++ zeroPad 2 t.sec ++ "] "

/-- One successful call into the component: either `DebugAngel_Write` with
an already-rendered buffer, or `DebugAngel_HexWrite` with a time, a byte
buffer, and a direction code. -/
inductive LogCall where
  | write (rendered : String)
  | hexWrite (t : Tm) (buffer : List (Fin 256)) (sender : Int)

/-- The record a single call appends to the file. -/
def callRecord : LogCall → String
  | .write s => s
  | .hexWrite t b snd => hexLine t b snd

/-- Execute one successful call against the current file contents. -/
def runCall (contents : String) : LogCall → String
  | .write s => writeDebugInfoStr true contents s
  | .hexWrite t b snd => debugAngel_HexWrite true contents t b snd

/-- Execute a sequence of successful calls, oldest first. -/
def runCalls (contents : String) (calls : List LogCall) : String :=
  calls.foldl runCall contents

/-- The concatenation, in call order, of the records of a call sequence. -/
def recordsText : List LogCall → String
  | [] => ""
  | c :: cs => callRecord c ++ recordsText cs

/-! ### Helper lemmas -/

lemma stringMk_length (l : List Char) : (String.mk l).length = l.length := rfl

lemma decCharsAux_fuel (n : Nat) : ∀ f, n ≤ f → decCharsAux f n = decChars n := by
  induction n using Nat.strong_induction_on with
  | _ n ih =>
    intro f hf
    match n, f with
    | 0, f => cases f <;> rfl
    | n + 1, f + 1 =>
      have hdiv : (n + 1) / 10 < n + 1 := Nat.div_lt_self (Nat.succ_pos n) (by norm_num)
      have h1 : decCharsAux f ((n + 1) / 10) = decChars ((n + 1) / 10) :=
        ih _ hdiv _ (Nat.le_of_lt_succ (Nat.lt_of_lt_of_le hdiv hf))
      have h2 : decCharsAux n ((n + 1) / 10) = decChars ((n + 1) / 10) :=
        ih _ hdiv _ (Nat.le_of_lt_succ hdiv)
      show decCharsAux f ((n + 1) / 10) ++ [hexDigit ((n + 1) % 10)] =
        decCharsAux n ((n + 1) / 10) ++ [hexDigit ((n + 1) % 10)]
      rw [h1, h2]

lemma decChars_succ (n : Nat) (h : n ≠ 0) :
    decChars n = decChars (n / 10) ++ [hexDigit (n % 10)] := by
  match n, h with
  | n + 1, _ =>
    show decCharsAux n ((n + 1) / 10) ++ [hexDigit ((n + 1) % 10)] = _
    rw [decCharsAux_fuel _ n
      (Nat.le_of_lt_succ (Nat.div_lt_self (Nat.succ_pos n) (by norm_num)))]

lemma decChars_len1 (n : Nat) (h1 : 1 ≤ n) (h2 : n ≤ 9) :
    (decChars n).length = 1 := by
  rw [decChars_succ n (by omega), Nat.div_eq_of_lt (by omega)]
  rfl

lemma decChars_len2 (n : Nat) (h1 : 10 ≤ n) (h2 : n ≤ 99) :
    (decChars n).length = 2 := by
  rw [decChars_succ n (by omega)]
  have h := decChars_len1 (n / 10) (by omega) (by omega)
  simp [h]

lemma decChars_len3 (n : Nat) (h1 : 100 ≤ n) (h2 : n ≤ 999) :
    (decChars n).length = 3 := by
  rw [decChars_succ n (by omega)]
  have h := decChars_len2 (n / 10) (by omega) (by omega)
  simp [h]

lemma decChars_len4 (n : Nat) (h1 : 1000 ≤ n) (h2 : n ≤ 9999) :
    (decChars n).length = 4 := by
  rw [decChars_succ n (by omega)]
  have h := decChars_len3 (n / 10) (by omega) (by omega)
  simp [h]

lemma toDecString_len4 (n : Nat) (h1 : 1000 ≤ n) (h2 : n ≤ 9999) :
    (toDecString n).length = 4 := by
  rw [toDecString, if_neg (by omega), stringMk_length]
  exact decChars_len4 n h1 h2

lemma toDecString_len1 (n : Nat) (h2 : n ≤ 9) : (toDecString n).length = 1 := by
  by_cases h : n = 0
  · subst h; rfl
  · rw [toDecString, if_neg h, stringMk_length]
    exact decChars_len1 n (by omega) h2

lemma pad2_len (n : Nat) (h : n ≤ 99) : (pad2 n).length = 2 := by
  by_cases h10 : n < 10
  · rw [pad2, if_pos h10, String.length_append, toDecString_len1 n (by omega)]
    rfl
  · rw [pad2, if_neg h10, toDecString, if_neg (by omega), stringMk_length]
    exact decChars_len2 n (by omega) h

lemma getCurrentTimeWrapped_len (t : Tm) (h : ValidTm t) :
    (getCurrentTimeWrapped t).length = 22 := by
  obtain ⟨h1, h2, h3, h4, h5, h6, h7, h8, h9⟩ := h
  rw [getCurrentTimeWrapped]
  simp only [String.length_append, toDecString_len4 t.year h1 h2,
    pad2_len t.month (by omega), pad2_len t.day (by omega),
    pad2_len t.hour (by omega), pad2_len t.minute (by omega),
    pad2_len t.sec (by omega)]
  rfl

lemma logType_len (sender : Int) : (logType sender).length = 5 := by
  rw [logType]; split <;> rfl

lemma hexToken_len (b : Fin 256) : (hexToken b).length = 5 := by
  rw [hexToken]
  simp only [String.length_append, stringMk_length, List.length_cons,
    List.length_nil]
  rfl

lemma hexLoop_eq (B : List (Fin 256)) :
    ∀ acc, hexLoop B acc = acc ++ hexBody B := by
  induction B with
  | nil =>
    intro acc
    show acc = acc ++ ""
    rw [String.append_empty]
  | cons b bs ih =>
    intro acc
    show hexLoop bs (acc ++ hexToken b) = acc ++ (hexToken b ++ hexBody bs)
    rw [ih, String.append_assoc]

lemma hexBody_len (B : List (Fin 256)) : (hexBody B).length = 5 * B.length := by
  induction B with
  | nil => rfl
  | cons b bs ih =>
    show (hexToken b ++ hexBody bs).length = _
    rw [String.length_append, hexToken_len, ih, List.length_cons]
    ring

lemma hexLine_eq (t : Tm) (B : List (Fin 256)) (sender : Int) :
    hexLine t B sender =
      getCurrentTimeWrapped t ++ logType sender ++ hexBody B ++ "\r\n" := by
  rw [hexLine, hexLoop_eq]
  rfl

lemma hexLine_len (t : Tm) (B : List (Fin 256)) (sender : Int) (h : ValidTm t) :
    (hexLine t B sender).length = 29 + 5 * B.length := by
  rw [hexLine_eq]
  simp only [String.length_append, getCurrentTimeWrapped_len t h, logType_len,
    hexBody_len]
  show 22 + 5 + 5 * B.length + 2 = 29 + 5 * B.length
  ring

lemma zeroPad_of_len (w n : Nat) (h : (toDecString n).length = w) :
    zeroPad w n = toDecString n := by
  rw [zeroPad, h, Nat.sub_self]
  rfl

lemma zeroPad2_eq_pad2 (n : Nat) (h : n ≤ 99) : zeroPad 2 n = pad2 n := by
  by_cases h10 : n < 10
  · have hl : (toDecString n).length = 1 := toDecString_len1 n (by omega)
    rw [zeroPad, hl, pad2, if_pos h10]
    rfl
  · rw [pad2, if_neg h10]
    refine zeroPad_of_len 2 n ?_
    rw [toDecString, if_neg (by omega), stringMk_length]
    exact decChars_len2 n (by omega) h

lemma timestamp_eq_spec (t : Tm) (h : ValidTm t) :
    getCurrentTimeWrapped t = specTimestamp t := by
  obtain ⟨h1, h2, h3, h4, h5, h6, h7, h8, h9⟩ := h
  rw [getCurrentTimeWrapped, specTimestamp,
    zeroPad_of_len 4 t.year (toDecString_len4 t.year h1 h2),
    zeroPad2_eq_pad2 t.month (by omega), zeroPad2_eq_pad2 t.day (by omega),
    zeroPad2_eq_pad2 t.hour (by omega), zeroPad2_eq_pad2 t.minute (by omega),
    zeroPad2_eq_pad2 t.sec (by omega)]

/-! ### Claim theorems -/

/-- C1: for every byte buffer, the hex-dump loop appends to its accumulator
exactly one token per byte, in buffer order, and every token is `0x`
followed by two uppercase hexadecimal digits and a space. -/
theorem C1_hexdump_tokens (B : List (Fin 256)) (acc : String) :
    hexLoop B acc = acc ++ hexBody B ∧
    ∀ b : Fin 256, ∃ d : String, hexToken b = "0x" ++ d ++ " " ∧
      d.length = 2 ∧ ∀ c ∈ d.data, isUpperHexDigit c := by
  refine ⟨hexLoop_eq B acc, ?_⟩
  intro b
  refine ⟨String.mk [hexDigit (b.val / 16), hexDigit (b.val % 16)], rfl, rfl, ?_⟩
  intro c hc
  have hlt := b.isLt
  have h16a : b.val / 16 < 16 := by omega
  have h16b : b.val % 16 < 16 := Nat.mod_lt _ (by norm_num)
  have hd : ∀ k, k < 16 → isUpperHexDigit (hexDigit k) := by decide
  have hc' : c ∈ [hexDigit (b.val / 16), hexDigit (b.val % 16)] := hc
  rcases List.mem_cons.mp hc' with h | h
  · rw [h]; exact hd _ h16a
  · rw [List.mem_singleton.mp h]; exact hd _ h16b

/-- C2: direction code 1 yields the tag `"C->S "` and every other integer
yields `"S->C "`; no direction value is rejected. -/
theorem C2_direction_tag :
    logType 1 = "C->S " ∧ ∀ sender : Int, sender ≠ 1 → logType sender = "S->C " := by
  refine ⟨rfl, ?_⟩
  intro s hs
  rw [logType, if_neg hs]

theorem C2_direction_tag_witness :
    logType 1 = "C->S " ∧ ((2 : Int) ≠ 1 ∧ logType 2 = "S->C ") :=
  ⟨C2_direction_tag.1, by decide, C2_direction_tag.2 2 (by decide)⟩

/-- C3: a successful call to either write operation leaves the prior file
contents in place unchanged and appends exactly its one record after them. -/
theorem C3_append_only (old s : String) (t : Tm) (B : List (Fin 256))
    (sender : Int) :
    writeDebugInfoStr true old s = old ++ s ∧
    debugAngel_HexWrite true old t B sender = old ++ hexLine t B sender :=
  ⟨rfl, rfl⟩

/-- C4 (counterexample): the timestamp produced for 2024-01-02 03:04:05 is
not 21 characters long (it is 22: the 21-character bracketed body plus the
trailing space), refuting the claimed 21-character length. -/
theorem C4_timestamp_len_counterexample :
    (getCurrentTimeWrapped ⟨2024, 1, 2, 3, 4, 5⟩).length ≠ 21 := by decide

/-- C4 (amended): timestamp formatting is a pure, deterministic function of
the time instant; at equal instants it yields the identical 22-character
string `[YYYY-MM-DD HH:MM:SS] ` with zero-padded fields. -/
theorem C4_timestamp_pure (t t2 : Tm) (h : ValidTm t) (he : t = t2) :
    getCurrentTimeWrapped t = getCurrentTimeWrapped t2 ∧
    getCurrentTimeWrapped t = specTimestamp t ∧
    (getCurrentTimeWrapped t).length = 22 := by
  subst he
  exact ⟨rfl, timestamp_eq_spec t h, getCurrentTimeWrapped_len t h⟩

theorem C4_timestamp_pure_witness :
    ValidTm ⟨2024, 1, 2, 3, 4, 5⟩ ∧
      (getCurrentTimeWrapped ⟨2024, 1, 2, 3, 4, 5⟩ =
          getCurrentTimeWrapped ⟨2024, 1, 2, 3, 4, 5⟩ ∧
        getCurrentTimeWrapped ⟨2024, 1, 2, 3, 4, 5⟩ =
          specTimestamp ⟨2024, 1, 2, 3, 4, 5⟩ ∧
        (getCurrentTimeWrapped ⟨2024, 1, 2, 3, 4, 5⟩).length = 22) :=
  ⟨by decide, C4_timestamp_pure ⟨2024, 1, 2, 3, 4, 5⟩ ⟨2024, 1, 2, 3, 4, 5⟩
    (by decide) rfl⟩

/-- C5: when the rendered text fits the 1024-character buffer,
`DebugAngel_Write` appends exactly the rendered string: no timestamp, no
direction tag, no trailing newline of its own. -/
theorem C5_write_appends_exactly (contents rendered : String)
    (_h : rendered.length + 1 ≤ 1024) :
    debugAngel_Write true contents rendered = contents ++ rendered := rfl

theorem C5_write_appends_exactly_witness :
    ("hello\r\n" : String).length + 1 ≤ 1024 ∧
      debugAngel_Write true "prior" "hello\r\n" = "prior" ++ "hello\r\n" :=
  ⟨by decide, C5_write_appends_exactly "prior" "hello\r\n" (by decide)⟩

/-- C6: hex-dumping the bytes `41 00 FF` with direction 1 at local time
2024-01-02 03:04:05 appends exactly the line
`[2024-01-02 03:04:05] C->S 0x41 0x00 0xFF \r\n`. -/
theorem C6_concrete_hexdump :
    debugAngel_HexWrite true "" ⟨2024, 1, 2, 3, 4, 5⟩ [0x41, 0x00, 0xFF] 1 =
      "[2024-01-02 03:04:05] C->S 0x41 0x00 0xFF \r\n" := by decide

/-- C7: an empty buffer with a direction other than 1 produces a line that
is only the timestamp, the tag `S->C `, and the terminating CRLF. -/
theorem C7_empty_buffer (t : Tm) (sender : Int) (h : sender ≠ 1) :
    hexLine t [] sender = getCurrentTimeWrapped t ++ "S->C \r\n" := by
  rw [hexLine_eq, logType, if_neg h]
  show getCurrentTimeWrapped t ++ "S->C " ++ "" ++ "\r\n" =
    getCurrentTimeWrapped t ++ "S->C \r\n"
  rw [String.append_empty, String.append_assoc]
  congr 1

theorem C7_empty_buffer_witness :
    ((2 : Int) ≠ 1) ∧
      hexLine ⟨2024, 1, 2, 3, 4, 5⟩ [] 2 =
        getCurrentTimeWrapped ⟨2024, 1, 2, 3, 4, 5⟩ ++ "S->C \r\n" :=
  ⟨by decide, C7_empty_buffer ⟨2024, 1, 2, 3, 4, 5⟩ 2 (by decide)⟩

/-- C8: when the file cannot be opened both operations return normally and
change nothing: the contents are exactly what they were before the call. -/
theorem C8_silent_failure (old s : String) (t : Tm) (B : List (Fin 256))
    (sender : Int) :
    writeDebugInfoStr false old s = old ∧
    debugAngel_HexWrite false old t B sender = old :=
  ⟨rfl, rfl⟩

/-- C9: after a sequence of successful calls (any mix of the two write
operations), the file holds the prior contents followed by the calls'
records, in call order. -/
theorem C9_sequential_calls (contents : String) (calls : List LogCall) :
    runCalls contents calls = contents ++ recordsText calls := by
  induction calls generalizing contents with
  | nil =>
    show contents = contents ++ ""
    rw [String.append_empty]
  | cons c cs ih =>
    show runCalls (runCall contents c) cs = contents ++ (callRecord c ++ recordsText cs)
    rw [ih]
    have h : runCall contents c = contents ++ callRecord c := by
      cases c <;> rfl
    rw [h, String.append_assoc]

/-- C10: the assembled hex line (plus its terminating NUL) fits the
1024-character `lpszStr` buffer exactly when the buffer holds at most 198
bytes. -/
theorem C10_buffer_bound (t : Tm) (B : List (Fin 256)) (sender : Int)
    (h : ValidTm t) :
    (hexLine t B sender).length + 1 ≤ 1024 ↔ B.length ≤ 198 := by
  rw [hexLine_len t B sender h]
  omega

theorem C10_buffer_bound_witness :
    ValidTm ⟨2024, 1, 2, 3, 4, 5⟩ ∧
      ((hexLine ⟨2024, 1, 2, 3, 4, 5⟩ [] 1).length + 1 ≤ 1024 ↔
        ([] : List (Fin 256)).length ≤ 198) :=
  ⟨by decide, C10_buffer_bound ⟨2024, 1, 2, 3, 4, 5⟩ [] 1 (by decide)⟩

end DebugAngel
